import Mathlib

/-!
Shallow embedding of the quinn perf client (`perf/src/bin/perf_client.rs`).

The program drives a request/response load-generation protocol over QUIC
streams.  We embed the stream-driver routines (`request`, `drain_stream`),
the scheduler loops (`drive_uni` / `drive_bi`, whose concurrency budget is a
Tokio semaphore), and the lifecycle tail of `run`/`main` as pure Lean
functions over explicit environments:

* transport writes and the `stopped()` wait are modelled by a `SendEnv`
  telling which write operations succeed and what the (discarded) result of
  the `stopped()` wait is;
* the receive side is a script of `read_chunks` results, each tagged with
  the value `download_start.elapsed()` would return at that suspension
  point: time advances only across `.await` points, so consecutive calls to
  `elapsed()` in straight-line code return the same value;
* the effect on the stats registry (`OpenStreamStats`) is captured as an
  ordered event trace (`new_sender` / `new_receiver` creation, `on_bytes`,
  `on_first_byte`, `finish` calls), so ordering claims are statable;
* the semaphore discipline of the scheduler loops is a step relation on a
  permit-counting state, quantified over arbitrary interleavings of
  launches and task completions.
-/

/-- Length of the static 1 MiB filler buffer (`DATA.len()` in `request`). -/
def DATA_LEN : Nat := 1024 * 1024

/-- Model of `u64::to_be_bytes` on the download size: the 8-byte big-endian header
written first on every stream. -/
def toBeBytes64 (n : Nat) : List Nat :=
  [n / 2 ^ 56 % 256, n / 2 ^ 48 % 256, n / 2 ^ 40 % 256, n / 2 ^ 32 % 256,
   n / 2 ^ 24 % 256, n / 2 ^ 16 % 256, n / 2 ^ 8 % 256, n % 256]

/-- Big-endian interpretation of a byte list (most significant first),
used to check that `toBeBytes64` really is the big-endian encoding. -/
def fromBeBytes (bs : List Nat) : Nat :=
  bs.foldl (fun acc b => acc * 256 + b) 0

/-- One observable action of the send half of `request`:
writes on the stream, stats-registry calls, the half-close, and the
wait on `stopped()`. -/
inductive ReqEvent where
  | write (bytes : List Nat)
  | newSender (expected : Nat)
  | onBytes (n : Nat)
  | finishSend
  | waitStopped
  | recordFinish (elapsed : Nat)
  deriving Repr, DecidableEq

/-- Environment for one call of `request`: whether the k-th stream write
(0 = header, then one per chunk) succeeds, the result of the
`stopped().await` wait (discarded by the code: `_ = send.stopped().await`),
and the value of `upload_start.elapsed()` after that wait. -/
structure SendEnv where
  writeOk : Nat → Bool
  stoppedOk : Bool
  finishElapsed : Nat

/-- The `while upload > 0` loop of `request`: take `chunk_len =
upload.min(DATA.len())`, `write_chunk` a prefix of the filler buffer
(all bytes 42), then `on_bytes(chunk_len)`, until the remaining upload is
zero.  `k` numbers the writes (the header was write 0).  Returns the event
trace and whether every write succeeded (`?` propagates the first
failure). -/
def requestLoop (env : SendEnv) (upload k : Nat) : List ReqEvent × Bool :=
  if h : upload = 0 then ([], true)
  else
    let chunk_len := min upload DATA_LEN
    if env.writeOk k then
      let rest := requestLoop env (upload - chunk_len) (k + 1)
      (ReqEvent.write (List.replicate chunk_len 42) :: ReqEvent.onBytes chunk_len :: rest.1,
        rest.2)
    else ([], false)
termination_by upload
decreasing_by
  simp only [DATA_LEN]
  omega

/-- The shared request routine (`request` in the source): write the 8-byte
big-endian header; if `upload == 0`, `finish()` and return at once (no
send-side stats record); otherwise create the send-side stats record
(`new_sender`), run the chunked upload loop, `finish()`, wait on
`stopped()` (result discarded), and record completion.  Returns the event
trace and `true` for `Ok`. -/
def request (env : SendEnv) (upload download : Nat) : List ReqEvent × Bool :=
  if env.writeOk 0 then
    if upload = 0 then
      ([ReqEvent.write (toBeBytes64 download), ReqEvent.finishSend], true)
    else
      let body := requestLoop env upload 1
      if body.2 then
        (ReqEvent.write (toBeBytes64 download) :: ReqEvent.newSender upload :: body.1
          ++ [ReqEvent.finishSend, ReqEvent.waitStopped,
              ReqEvent.recordFinish env.finishElapsed], true)
      else
        (ReqEvent.write (toBeBytes64 download) :: ReqEvent.newSender upload :: body.1, false)
  else ([], false)

/-- All bytes written on the stream, in order: concatenation of the
payloads of the `write` events. -/
def writtenBytes (evs : List ReqEvent) : List Nat :=
  match evs with
  | [] => []
  | ReqEvent.write bs :: rest => bs ++ writtenBytes rest
  | _ :: rest => writtenBytes rest

/-- The chunk sizes passed to the send-side record by `on_bytes`, in
order. -/
def onBytesCalls (evs : List ReqEvent) : List Nat :=
  match evs with
  | [] => []
  | ReqEvent.onBytes n :: rest => n :: onBytesCalls rest
  | _ :: rest => onBytesCalls rest

/-- True when, once `finishSend` (the half-close) happens, no further
write event follows it. -/
def noWriteAfterClose (evs : List ReqEvent) : Bool :=
  match evs with
  | [] => true
  | ReqEvent.finishSend :: rest =>
      rest.all fun e => match e with
        | ReqEvent.write _ => false
        | _ => true
  | _ :: rest => noWriteAfterClose rest

/-- Semaphore-and-task state of one scheduler loop (`drive_uni` /
`drive_bi`): permits still available in the semaphore and request tasks
currently in flight (each holding one permit until its final
`drop(permit)`). -/
structure SchedState where
  available : Nat
  inFlight : Nat
  deriving Repr, DecidableEq

/-- Initial scheduler state: `Semaphore::new(concurrency)` and no spawned
task. -/
def initSched (concurrency : Nat) : SchedState :=
  { available := concurrency, inFlight := 0 }

/-- An interleaving event of a scheduler run: the loop acquires a permit
and spawns a driver (`launch`), or some spawned driver terminates —
successfully or with a logged error — and drops its permit
(`complete`). -/
inductive SchedEvent where
  | launch
  | complete
  deriving Repr, DecidableEq

/-- One transition.  `acquire_owned` only returns when a permit is
available; `complete` can only happen while some task is in flight.
`none` marks an event the semantics cannot produce in that state. -/
def schedStep (s : SchedState) : SchedEvent → Option SchedState
  | SchedEvent.launch =>
      if s.available = 0 then none
      else some { available := s.available - 1, inFlight := s.inFlight + 1 }
  | SchedEvent.complete =>
      if s.inFlight = 0 then none
      else some { available := s.available + 1, inFlight := s.inFlight - 1 }

/-- Run a scheduler loop of budget `concurrency` through an interleaving of
events. -/
def schedRun (concurrency : Nat) (evs : List SchedEvent) : Option SchedState :=
  evs.foldl (fun acc e => acc.bind fun s => schedStep s e) (some (initSched concurrency))

/-- One successful `read_chunks` iteration of `drain_stream`: the value of
`download_start.elapsed()` when the read returns, and the lengths of the
chunks filled into `bufs[..size]`. -/
structure ReadEvent where
  time : Nat
  chunks : List Nat
  deriving Repr, DecidableEq

/-- How the `while let Some(size) = stream.read_chunks(..).await?` loop
ends after the scripted reads: a clean end-of-data (`read_chunks` returns
`Ok(None)`, at elapsed time `time`), or a transport error propagated by
`?`. -/
inductive DrainEnd where
  | eof (time : Nat)
  | err
  deriving Repr, DecidableEq

/-- The receive-side stats record (`new_receiver` result) as the drain
routine drives it: expected byte total (`download`), the latencies passed
to `on_first_byte` (in order), the byte counts passed to `on_bytes`
(in order), and the elapsed time passed to `finish`, if it was called. -/
structure RecvRecord where
  expected : Nat
  firstByteCalls : List Nat
  onBytesRecv : List Nat
  finishedAt : Option Nat
  deriving Repr, DecidableEq

/-- Mutable state of the drain loop: the `first_byte` flag plus the record
calls made so far. -/
structure DrainState where
  first_byte : Bool
  firstByteCalls : List Nat
  onBytesRecv : List Nat
  deriving Repr, DecidableEq

/-- One iteration of the drain loop body: on the first read record
first-byte latency and clear the flag, then `on_bytes` the total length of
the chunks read (`bufs[..size].iter().map(..).sum()`). -/
def drainStep (st : DrainState) (ev : ReadEvent) : DrainState :=
  let st :=
    if st.first_byte then
      { st with firstByteCalls := st.firstByteCalls ++ [ev.time], first_byte := false }
    else st
  { st with onBytesRecv := st.onBytesRecv ++ [ev.chunks.sum] }

/-- Result of `drain_stream`: the receive-side record it created (if any)
and whether it returned `Ok`. -/
structure DrainResult where
  record : Option RecvRecord
  ok : Bool
  deriving Repr, DecidableEq

/-- Model of `drain_stream`: for `download == 0` return at once with no stats
record.  Otherwise create the receive record, run the read loop over the
scripted reads, and at clean end-of-data record the first byte (only if no
read ever arrived) and `finish`; a read error propagates before `finish`
is reached. -/
def drain_stream (download : Nat) (reads : List ReadEvent) (ending : DrainEnd) : DrainResult :=
  if download = 0 then { record := none, ok := true }
  else
    let st := reads.foldl drainStep
      { first_byte := true, firstByteCalls := [], onBytesRecv := [] }
    match ending with
    | DrainEnd.eof t =>
        let st :=
          if st.first_byte then
            { st with firstByteCalls := st.firstByteCalls ++ [t], first_byte := false }
          else st
        { record := some
            { expected := download, firstByteCalls := st.firstByteCalls,
              onBytesRecv := st.onBytesRecv, finishedAt := some t },
          ok := true }
    | DrainEnd.err =>
        { record := some
            { expected := download, firstByteCalls := st.firstByteCalls,
              onBytesRecv := st.onBytesRecv, finishedAt := none },
          ok := false }

/-- Model of `request_bi` (the bidirectional stream driver): run the shared request
routine on the send half; only if it returns `Ok` drain the receive half
of the same stream pair.  Results: the send event trace with its success
flag, and the drain result when the drain ran. -/
def request_bi (env : SendEnv) (reads : List ReadEvent) (ending : DrainEnd)
    (upload download : Nat) : (List ReqEvent × Bool) × Option DrainResult :=
  let r := request env upload download
  if r.2 then (r, some (drain_stream download reads ending)) else (r, none)

/-- Model of `request_uni` (the unidirectional stream driver): run the shared
request routine; only if it returns `Ok`, `accept_uni` the peer-opened
response stream (which may itself fail) and then drain it. -/
def request_uni (env : SendEnv) (acceptOk : Bool) (reads : List ReadEvent) (ending : DrainEnd)
    (upload download : Nat) : (List ReqEvent × Bool) × Option DrainResult :=
  let r := request env upload download
  if r.2 then
    if acceptOk then (r, some (drain_stream download reads ending)) else (r, none)
  else (r, none)

/-- Which arm of the `tokio::select!` race in `run` completes first:
the joined scheduler loops, the stats loop, the ctrl-c signal, or the
deadline sleep. -/
inductive RaceWinner where
  | driveDone
  | statsDone
  | interrupted
  | deadline
  deriving Repr, DecidableEq

/-- Observable steps of `run` after the race: `connection.close(code,
reason)`, `endpoint.wait_idle().await`, and the optional
`stats.print_json(..)` output. -/
inductive RunEvent where
  | closeConn (code : Nat) (reason : String)
  | waitIdle
  | printJson
  deriving Repr, DecidableEq

/-- The tail of `run` from the `tokio::select!` on: the signal arm closes
the connection with code 0 and reason `b"interrupted"`, the deadline arm
with code 0 and reason `b"done"`, the two loop arms close nothing; then
the endpoint is awaited idle, and only then the JSON summary (when
configured) is written. -/
def runTail (w : RaceWinner) (jsonOut : Bool) : List RunEvent :=
  (match w with
   | RaceWinner.driveDone => []
   | RaceWinner.statsDone => []
   | RaceWinner.interrupted => [RunEvent.closeConn 0 "interrupted"]
   | RaceWinner.deadline => [RunEvent.closeConn 0 "done"])
  ++ [RunEvent.waitIdle]
  ++ (if jsonOut then [RunEvent.printJson] else [])

/-- The deadline arm sleeps `Duration::from_secs(opt.duration) +
Duration::from_millis(200)`, in milliseconds. -/
def deadlineMillis (durationSecs : Nat) : Nat :=
  durationSecs * 1000 + 200

/-- The fallible setup steps of `run` before the engine futures are built,
in program order: port parsing, host resolution, socket binding and
endpoint creation, and connection establishment — each propagated by `?`
with its context string. -/
structure SetupEnv where
  parsePort : Except String Unit
  resolveHost : Except String Unit
  bindEndpoint : Except String Unit
  connect : Except String Unit

/-- The setup prefix of `run`: the first failing step short-circuits. -/
def runSetup (env : SetupEnv) : Except String Unit := do
  env.parsePort
  env.resolveHost
  env.bindEndpoint
  env.connect

/-- Model of `run` as seen from `main`: a setup failure returns that error without
the engine ever starting; otherwise the engine runs and its result is
returned.  The boolean records whether the engine started. -/
def run_model (env : SetupEnv) (engine : Except String Unit) : Except String Unit × Bool :=
  match runSetup env with
  | Except.error e => (Except.error e, false)
  | Except.ok _ => (engine, true)

/-- What `main` does with the result of `run`: `Err` is reported through
the error-level log (`error!`) and the process then terminates; `Ok`
terminates silently. -/
inductive MainOutcome where
  | errorReported (msg : String)
  | normalExit
  deriving Repr, DecidableEq

/-- Model of `main`: run, then report any error before exiting. -/
def main_model (runResult : Except String Unit) : MainOutcome :=
  match runResult with
  | Except.error e => MainOutcome.errorReported e
  | Except.ok _ => MainOutcome.normalExit

/-- A concrete send environment whose stream writes all succeed and whose
`stopped()` wait succeeds, for instantiating the theorems. -/
def okEnv : SendEnv :=
  { writeOk := fun _ => true, stoppedOk := true, finishElapsed := 7 }

/-- A concrete send environment whose stream writes all succeed but whose
`stopped()` wait errors. -/
def stopFailEnv : SendEnv :=
  { writeOk := fun _ => true, stoppedOk := false, finishElapsed := 7 }

/-- The error context string of the connection-establishment step. -/
def connectErrMsg : String := "connecting"

/-- A concrete setup environment whose connection establishment fails. -/
def connectFailEnv : SetupEnv :=
  { parsePort := Except.ok (), resolveHost := Except.ok (),
    bindEndpoint := Except.ok (), connect := Except.error connectErrMsg }

/-! ## Scheduler lemmas -/

theorem schedStep_sum (s t : SchedState) (e : SchedEvent) (h : schedStep s e = some t) :
    t.available + t.inFlight = s.available + s.inFlight := by
  cases e <;> simp only [schedStep] at h <;> split at h <;>
    first
      | (injection h with h2
         subst h2
         dsimp only
         omega)
      | exact absurd h (by simp)

theorem schedFold_none (evs : List SchedEvent) :
    evs.foldl (fun acc e => acc.bind fun s => schedStep s e) none = none := by
  induction evs with
  | nil => rfl
  | cons e rest ih => simpa using ih

theorem schedRun_sum (evs : List SchedEvent) (s0 s : SchedState)
    (h : evs.foldl (fun acc e => acc.bind fun s => schedStep s e) (some s0) = some s) :
    s.available + s.inFlight = s0.available + s0.inFlight := by
  induction evs generalizing s0 with
  | nil => simp at h; rw [h]
  | cons e rest ih =>
    rw [List.foldl_cons] at h
    cases hstep : schedStep s0 e with
    | none =>
      rw [show (some s0).bind (fun s => schedStep s e) = none by simp [hstep],
        schedFold_none] at h
      exact absurd h (by simp)
    | some s1 =>
      rw [show (some s0).bind (fun s => schedStep s e) = some s1 by simp [hstep]] at h
      rw [ih s1 h]
      exact schedStep_sum s0 s1 e hstep

/-- C1: for every configured concurrency N > 0 in a direction, along any
interleaving of permit acquisitions (stream launches) and request-task
completions admitted by the semaphore semantics of the scheduler loop, the
number of simultaneously in-flight requests never exceeds N. -/
theorem inflight_bounded_by_concurrency (n : Nat) (evs : List SchedEvent) (s : SchedState)
    (_hn : 0 < n) (h : schedRun n evs = some s) : s.inFlight ≤ n := by
  have hsum := schedRun_sum evs (initSched n) s h
  simp [initSched] at hsum
  omega

/-! ## Request-routine lemmas -/

theorem requestLoop_spec (env : SendEnv) (hw : ∀ j, env.writeOk j = true) :
    ∀ u k,
      (requestLoop env u k).2 = true ∧
      writtenBytes (requestLoop env u k).1 = List.replicate u 42 ∧
      (onBytesCalls (requestLoop env u k).1).sum = u ∧
      (∀ c ∈ onBytesCalls (requestLoop env u k).1, c ≤ DATA_LEN) ∧
      (∀ bs, ReqEvent.write bs ∈ (requestLoop env u k).1 → bs.length ≤ DATA_LEN) ∧
      ReqEvent.finishSend ∉ (requestLoop env u k).1 := by
  intro u
  induction u using Nat.strong_induction_on with
  | _ u ih =>
    intro k
    by_cases h0 : u = 0
    · subst h0
      rw [requestLoop]
      simp [writtenBytes, onBytesCalls]
    · have hmin : 0 < min u DATA_LEN := by
        simp only [DATA_LEN]
        omega
      have hle : min u DATA_LEN ≤ u := Nat.min_le_left u DATA_LEN
      have hlt : u - min u DATA_LEN < u := by omega
      obtain ⟨ih1, ih2, ih3, ih4, ih5, ih6⟩ := ih (u - min u DATA_LEN) hlt (k + 1)
      rw [requestLoop]
      simp only [h0, dite_false, dif_neg, not_false_iff, hw k, if_true]
      refine ⟨ih1, ?_, ?_, ?_, ?_, ?_⟩
      · simp only [writtenBytes, ih2]
        rw [← List.replicate_add]
        congr 1
        omega
      · simp only [onBytesCalls, List.sum_cons, ih3]
        omega
      · intro c hc
        simp only [onBytesCalls, List.mem_cons] at hc
        rcases hc with rfl | hc
        · exact Nat.min_le_right u DATA_LEN
        · exact ih4 c hc
      · intro bs hbs
        simp only [List.mem_cons] at hbs
        rcases hbs with h | h | h
        · cases h
          simp only [List.length_replicate]
          exact Nat.min_le_right u DATA_LEN
        · cases h
        · exact ih5 bs h
      · simp only [List.mem_cons]
        push_neg
        exact ⟨by simp, by simp, ih6⟩

theorem writtenBytes_append (a b : List ReqEvent) :
    writtenBytes (a ++ b) = writtenBytes a ++ writtenBytes b := by
  induction a with
  | nil => simp [writtenBytes]
  | cons e rest ih => cases e <;> simp [writtenBytes, ih]

theorem onBytesCalls_append (a b : List ReqEvent) :
    onBytesCalls (a ++ b) = onBytesCalls a ++ onBytesCalls b := by
  induction a with
  | nil => simp [onBytesCalls]
  | cons e rest ih => cases e <;> simp [onBytesCalls, ih]

theorem noWriteAfterClose_append (pre post : List ReqEvent)
    (hpre : ReqEvent.finishSend ∉ pre)
    (hpost : (post.all fun e => match e with
      | ReqEvent.write _ => false
      | _ => true) = true) :
    noWriteAfterClose (pre ++ ReqEvent.finishSend :: post) = true := by
  induction pre with
  | nil => simpa [noWriteAfterClose] using hpost
  | cons e rest ih =>
    have hne : e ≠ ReqEvent.finishSend := fun h => hpre (by simp [h])
    have hrest : ReqEvent.finishSend ∉ rest := fun h => hpre (by simp [h])
    cases e with
    | write bs => simpa [noWriteAfterClose] using ih hrest
    | newSender n => simpa [noWriteAfterClose] using ih hrest
    | onBytes n => simpa [noWriteAfterClose] using ih hrest
    | finishSend => exact absurd rfl hne
    | waitStopped => simpa [noWriteAfterClose] using ih hrest
    | recordFinish t => simpa [noWriteAfterClose] using ih hrest

theorem request_unfold_zero (env : SendEnv) (download : Nat) (hw0 : env.writeOk 0 = true) :
    request env 0 download
      = ([ReqEvent.write (toBeBytes64 download), ReqEvent.finishSend], true) := by
  unfold request
  simp [hw0]

theorem request_unfold_pos (env : SendEnv) (upload download : Nat)
    (hu : upload ≠ 0) (hw0 : env.writeOk 0 = true)
    (hbody : (requestLoop env upload 1).2 = true) :
    request env upload download
      = (ReqEvent.write (toBeBytes64 download) :: ReqEvent.newSender upload ::
          (requestLoop env upload 1).1
          ++ [ReqEvent.finishSend, ReqEvent.waitStopped,
              ReqEvent.recordFinish env.finishElapsed], true) := by
  unfold request
  simp [hw0, hu, hbody]

theorem fromBeBytes_toBeBytes64 (n : Nat) :
    fromBeBytes (toBeBytes64 n) = n % 2 ^ 64 := by
  simp only [fromBeBytes, toBeBytes64, List.foldl]
  omega

/-- Witness for C1: concurrency 2, a concrete interleaving that saturates
the budget. -/
theorem inflight_bounded_by_concurrency_witness :
    (0 < 2 ∧
      schedRun 2 [SchedEvent.launch, SchedEvent.launch, SchedEvent.complete, SchedEvent.launch]
        = some { available := 0, inFlight := 2 }) ∧
    ({ available := 0, inFlight := 2 } : SchedState).inFlight ≤ 2 :=
  ⟨⟨by decide, by decide⟩,
    inflight_bounded_by_concurrency 2
      [SchedEvent.launch, SchedEvent.launch, SchedEvent.complete, SchedEvent.launch]
      { available := 0, inFlight := 2 } (by decide) (by decide)⟩

/-- C2: for every request all of whose stream writes succeed, the bytes
written on the freshly opened stream are exactly the 8-byte big-endian
encoding of the configured download size followed by exactly `upload`
payload bytes of the fixed filler (byte 42), and after the last write the
send side is half-closed (`finish`), with no write after the close. -/
theorem request_wire_format (env : SendEnv) (upload download : Nat)
    (hw : ∀ j, env.writeOk j = true) :
    (request env upload download).2 = true ∧
    writtenBytes (request env upload download).1
      = toBeBytes64 download ++ List.replicate upload 42 ∧
    (toBeBytes64 download).length = 8 ∧
    fromBeBytes (toBeBytes64 download) = download % 2 ^ 64 ∧
    ReqEvent.finishSend ∈ (request env upload download).1 ∧
    noWriteAfterClose (request env upload download).1 = true := by
  by_cases h0 : upload = 0
  · subst h0
    rw [request_unfold_zero env download (hw 0)]
    exact ⟨rfl, by simp [writtenBytes], rfl, fromBeBytes_toBeBytes64 download,
      by simp, by simp [noWriteAfterClose]⟩
  · obtain ⟨hb1, hb2, hb3, hb4, hb5, hb6⟩ := requestLoop_spec env hw upload 1
    rw [request_unfold_pos env upload download h0 (hw 0) hb1]
    refine ⟨rfl, ?_, rfl, fromBeBytes_toBeBytes64 download, ?_, ?_⟩
    · simp [writtenBytes, writtenBytes_append, hb2]
    · simp
    · have hsplit : (ReqEvent.write (toBeBytes64 download) :: ReqEvent.newSender upload ::
          (requestLoop env upload 1).1)
          ++ [ReqEvent.finishSend, ReqEvent.waitStopped,
              ReqEvent.recordFinish env.finishElapsed]
          = (ReqEvent.write (toBeBytes64 download) :: ReqEvent.newSender upload ::
              (requestLoop env upload 1).1)
            ++ ReqEvent.finishSend ::
              [ReqEvent.waitStopped, ReqEvent.recordFinish env.finishElapsed] := by
        simp
      rw [hsplit]
      apply noWriteAfterClose_append
      · intro hmem
        simp only [List.mem_cons] at hmem
        rcases hmem with h | h | h
        · simp at h
        · simp at h
        · exact hb6 h
      · rfl

/-- Witness for C2 at `upload = 3`, `download = 5` in the all-writes-ok
environment. -/
theorem request_wire_format_witness :
    (∀ j, okEnv.writeOk j = true) ∧
    ((request okEnv 3 5).2 = true ∧
     writtenBytes (request okEnv 3 5).1 = toBeBytes64 5 ++ List.replicate 3 42 ∧
     (toBeBytes64 5).length = 8 ∧
     fromBeBytes (toBeBytes64 5) = 5 % 2 ^ 64 ∧
     ReqEvent.finishSend ∈ (request okEnv 3 5).1 ∧
     noWriteAfterClose (request okEnv 3 5).1 = true) :=
  ⟨fun _ => rfl, request_wire_format okEnv 3 5 fun _ => rfl⟩

/-- C3: for every completed request with `upload > 0` (all writes
succeed), the chunk lengths passed to `on_bytes` on the send-side record
sum to exactly the configured upload size, and every chunk recorded — and
every payload written, the 8-byte header included — is at most 1 MiB. -/
theorem upload_bytes_exact (env : SendEnv) (upload download : Nat)
    (hu : 0 < upload) (hw : ∀ j, env.writeOk j = true) :
    (request env upload download).2 = true ∧
    (onBytesCalls (request env upload download).1).sum = upload ∧
    (∀ c ∈ onBytesCalls (request env upload download).1, c ≤ 1024 * 1024) ∧
    (∀ bs, ReqEvent.write bs ∈ (request env upload download).1 →
      bs.length ≤ 1024 * 1024) := by
  obtain ⟨hb1, hb2, hb3, hb4, hb5, hb6⟩ := requestLoop_spec env hw upload 1
  rw [request_unfold_pos env upload download (Nat.pos_iff_ne_zero.mp hu) (hw 0) hb1]
  refine ⟨rfl, ?_, ?_, ?_⟩
  · simp [onBytesCalls, onBytesCalls_append, hb3]
  · intro c hc
    simp only [List.cons_append, onBytesCalls, onBytesCalls_append, List.append_eq,
      List.append_nil] at hc
    simpa [DATA_LEN] using hb4 c hc
  · intro bs hbs
    simp only [List.cons_append, List.mem_cons] at hbs
    rcases hbs with h | h | h
    · injection h with h
      subst h
      norm_num [toBeBytes64]
    · simp at h
    · rw [List.mem_append] at h
      rcases h with h | h
      · simpa [DATA_LEN] using hb5 bs h
      · simp at h

/-- Witness for C3 at `upload = 3`, `download = 5`. -/
theorem upload_bytes_exact_witness :
    (0 < 3 ∧ ∀ j, okEnv.writeOk j = true) ∧
    ((request okEnv 3 5).2 = true ∧
     (onBytesCalls (request okEnv 3 5).1).sum = 3 ∧
     (∀ c ∈ onBytesCalls (request okEnv 3 5).1, c ≤ 1024 * 1024) ∧
     (∀ bs, ReqEvent.write bs ∈ (request okEnv 3 5).1 → bs.length ≤ 1024 * 1024)) :=
  ⟨⟨by decide, fun _ => rfl⟩, upload_bytes_exact okEnv 3 5 (by decide) fun _ => rfl⟩

/-- C5: when all writes succeed, the request routine performs the
`stopped()` wait if and only if `upload > 0`; with `upload = 0` it
half-closes immediately after the header, creates no send-side record,
and performs no wait; with `upload > 0` the wait sits between the
half-close and the recording of send completion. -/
theorem stopped_wait_iff_upload (env : SendEnv) (upload download : Nat)
    (hw : ∀ j, env.writeOk j = true) :
    (ReqEvent.waitStopped ∈ (request env upload download).1 ↔ 0 < upload) ∧
    (upload = 0 →
      (request env upload download).1
        = [ReqEvent.write (toBeBytes64 download), ReqEvent.finishSend] ∧
      ∀ n, ReqEvent.newSender n ∉ (request env upload download).1) ∧
    (0 < upload → ∃ pre, (request env upload download).1
      = pre ++ [ReqEvent.finishSend, ReqEvent.waitStopped,
                ReqEvent.recordFinish env.finishElapsed]) := by
  by_cases h0 : upload = 0
  · subst h0
    rw [request_unfold_zero env download (hw 0)]
    refine ⟨by simp, fun _ => ⟨rfl, by simp⟩, by simp⟩
  · obtain ⟨hb1, _, _, _, _, _⟩ := requestLoop_spec env hw upload 1
    rw [request_unfold_pos env upload download h0 (hw 0) hb1]
    refine ⟨by simp [Nat.pos_iff_ne_zero, h0], fun h => absurd h h0, fun _ => ?_⟩
    exact ⟨ReqEvent.write (toBeBytes64 download) :: ReqEvent.newSender upload ::
      (requestLoop env upload 1).1, by simp⟩

/-- Witness for C5 at `upload = 2`, `download = 9`. -/
theorem stopped_wait_iff_upload_witness :
    (∀ j, okEnv.writeOk j = true) ∧
    ((ReqEvent.waitStopped ∈ (request okEnv 2 9).1 ↔ 0 < 2) ∧
     (2 = 0 →
       (request okEnv 2 9).1 = [ReqEvent.write (toBeBytes64 9), ReqEvent.finishSend] ∧
       ∀ n, ReqEvent.newSender n ∉ (request okEnv 2 9).1) ∧
     (0 < 2 → ∃ pre, (request okEnv 2 9).1
       = pre ++ [ReqEvent.finishSend, ReqEvent.waitStopped,
                 ReqEvent.recordFinish okEnv.finishElapsed])) :=
  ⟨fun _ => rfl, stopped_wait_iff_upload okEnv 2 9 fun _ => rfl⟩

/-- C8: with `upload > 0` and all writes succeeding, even when the
`stopped()` wait itself errors (its result is discarded by the code), the
request routine still records send completion with the measured elapsed
time after the wait and returns success. -/
theorem stopped_error_still_success (w : Nat → Bool) (t upload download : Nat)
    (hu : 0 < upload) (hw : ∀ j, w j = true) :
    (request { writeOk := w, stoppedOk := false, finishElapsed := t }
        upload download).2 = true ∧
    ∃ pre, (request { writeOk := w, stoppedOk := false, finishElapsed := t }
        upload download).1
      = pre ++ [ReqEvent.finishSend, ReqEvent.waitStopped, ReqEvent.recordFinish t] := by
  obtain ⟨hb1, _, _, _, _, _⟩ :=
    requestLoop_spec { writeOk := w, stoppedOk := false, finishElapsed := t } hw upload 1
  rw [request_unfold_pos _ upload download (Nat.pos_iff_ne_zero.mp hu) (hw 0) hb1]
  exact ⟨rfl, ReqEvent.write (toBeBytes64 download) :: ReqEvent.newSender upload ::
    (requestLoop { writeOk := w, stoppedOk := false, finishElapsed := t } upload 1).1,
    by simp⟩

/-- Witness for C8 at `upload = 2`, `download = 9`, elapsed 7. -/
theorem stopped_error_still_success_witness :
    (0 < 2 ∧ ∀ j, stopFailEnv.writeOk j = true) ∧
    ((request { writeOk := stopFailEnv.writeOk, stoppedOk := false, finishElapsed := 7 }
        2 9).2 = true ∧
     ∃ pre, (request { writeOk := stopFailEnv.writeOk, stoppedOk := false, finishElapsed := 7 }
        2 9).1
       = pre ++ [ReqEvent.finishSend, ReqEvent.waitStopped, ReqEvent.recordFinish 7]) :=
  ⟨⟨by decide, fun _ => rfl⟩,
    stopped_error_still_success stopFailEnv.writeOk 7 2 9 (by decide) fun _ => rfl⟩

/-! ## Drain-routine lemmas -/

theorem drainFold_false (l : List ReadEvent) (st : DrainState) (h : st.first_byte = false) :
    l.foldl drainStep st
      = { first_byte := false, firstByteCalls := st.firstByteCalls,
          onBytesRecv := st.onBytesRecv ++ l.map fun e => e.chunks.sum } := by
  induction l generalizing st with
  | nil =>
    simp only [List.foldl_nil, List.map_nil, List.append_nil]
    cases st
    simp_all
  | cons e rest ih =>
    rw [List.foldl_cons]
    have hstep : drainStep st e
        = { first_byte := false, firstByteCalls := st.firstByteCalls,
            onBytesRecv := st.onBytesRecv ++ [e.chunks.sum] } := by
      simp [drainStep, h]
    rw [hstep, ih _ rfl]
    simp

theorem drainFold_cons (e : ReadEvent) (rest : List ReadEvent) :
    (e :: rest).foldl drainStep
        { first_byte := true, firstByteCalls := [], onBytesRecv := [] }
      = { first_byte := false, firstByteCalls := [e.time],
          onBytesRecv := (e :: rest).map fun r => r.chunks.sum } := by
  rw [List.foldl_cons]
  have hstep : drainStep { first_byte := true, firstByteCalls := [], onBytesRecv := [] } e
      = { first_byte := false, firstByteCalls := [e.time],
          onBytesRecv := [e.chunks.sum] } := by
    simp [drainStep]
  rw [hstep, drainFold_false _ _ rfl]
  simp

theorem drain_stream_eof_nil (download t : Nat) (hD : download ≠ 0) :
    drain_stream download [] (DrainEnd.eof t)
      = { record := some
            { expected := download, firstByteCalls := [t],
              onBytesRecv := [], finishedAt := some t },
          ok := true } := by
  simp [drain_stream, hD]

theorem drain_stream_eof_cons (download t : Nat) (e : ReadEvent) (rest : List ReadEvent)
    (hD : download ≠ 0) :
    drain_stream download (e :: rest) (DrainEnd.eof t)
      = { record := some
            { expected := download, firstByteCalls := [e.time],
              onBytesRecv := (e :: rest).map fun r => r.chunks.sum,
              finishedAt := some t },
          ok := true } := by
  rw [drain_stream]
  rw [if_neg hD, drainFold_cons]
  simp

theorem chain_le_last (a t : Nat) (l : List Nat)
    (h : List.Chain' (· ≤ ·) (a :: (l ++ [t]))) : a ≤ t := by
  induction l generalizing a with
  | nil => exact (List.chain'_cons.mp h).1
  | cons b rest ih =>
    rw [List.cons_append, List.chain'_cons] at h
    exact le_trans h.1 (ih b h.2)

theorem request_ok (env : SendEnv) (upload download : Nat)
    (hw : ∀ j, env.writeOk j = true) :
    (request env upload download).2 = true := by
  by_cases h0 : upload = 0
  · subst h0
    rw [request_unfold_zero env download (hw 0)]
  · obtain ⟨hb1, _, _, _, _, _⟩ := requestLoop_spec env hw upload 1
    rw [request_unfold_pos env upload download h0 (hw 0) hb1]

/-- C6: for a drained response with download D > 0 from a conforming peer
that delivers exactly D bytes and then clean end-of-data, the drain
routine reports success, the record totals D bytes and carries a finish
time, and the recorded first-byte latency is at most the total elapsed
time, which is positive.  The elapsed-clock readings at successive awaits
are assumed monotone and positive. -/
theorem drain_conforming_latency (download t : Nat) (reads : List ReadEvent)
    (hD : 0 < download)
    (hsum : (reads.map fun r => r.chunks.sum).sum = download)
    (hchain : List.Chain' (· ≤ ·) ((reads.map fun r => r.time) ++ [t]))
    (hpos : ∀ x ∈ (reads.map fun r => r.time) ++ [t], 0 < x) :
    (drain_stream download reads (DrainEnd.eof t)).ok = true ∧
    ∃ r, (drain_stream download reads (DrainEnd.eof t)).record = some r ∧
      r.onBytesRecv.sum = download ∧
      r.finishedAt = some t ∧
      ∃ fb, r.firstByteCalls = [fb] ∧ fb ≤ t ∧ 0 < t := by
  cases reads with
  | nil =>
    rw [List.map_nil, List.sum_nil] at hsum
    omega
  | cons e rest =>
    rw [drain_stream_eof_cons download t e rest (by omega)]
    refine ⟨rfl, _, rfl, hsum, rfl, e.time, rfl, ?_, ?_⟩
    · apply chain_le_last e.time t (rest.map fun r => r.time)
      simpa using hchain
    · exact hpos t (by simp)

/-- Witness for C6: one read of 2+3 bytes at elapsed 1, end-of-data at
elapsed 4, download 5. -/
theorem drain_conforming_latency_witness :
    (0 < 5 ∧
      (([⟨1, [2, 3]⟩] : List ReadEvent).map fun r => r.chunks.sum).sum = 5 ∧
      List.Chain' (· ≤ ·) ((([⟨1, [2, 3]⟩] : List ReadEvent).map fun r => r.time) ++ [4]) ∧
      ∀ x ∈ (([⟨1, [2, 3]⟩] : List ReadEvent).map fun r => r.time) ++ [4], 0 < x) ∧
    ((drain_stream 5 [⟨1, [2, 3]⟩] (DrainEnd.eof 4)).ok = true ∧
     ∃ r, (drain_stream 5 [⟨1, [2, 3]⟩] (DrainEnd.eof 4)).record = some r ∧
       r.onBytesRecv.sum = 5 ∧
       r.finishedAt = some 4 ∧
       ∃ fb, r.firstByteCalls = [fb] ∧ fb ≤ 4 ∧ 0 < 4) :=
  ⟨⟨by decide, by decide, by simp, by decide⟩,
    drain_conforming_latency 5 4 [⟨1, [2, 3]⟩] (by decide) (by decide) (by simp) (by decide)⟩

/-- C10: for every drained response with download > 0 that reaches clean
end-of-data, the first-byte latency is recorded exactly once and the
record is then finished; when zero response bytes arrived before
end-of-data, the recorded first-byte latency equals the recorded total
elapsed time. -/
theorem first_byte_recorded_once (download t : Nat) (reads : List ReadEvent)
    (hD : 0 < download) :
    ∃ r, (drain_stream download reads (DrainEnd.eof t)).record = some r ∧
      r.firstByteCalls.length = 1 ∧
      r.finishedAt = some t ∧
      (reads = [] → r.firstByteCalls = [t]) := by
  cases reads with
  | nil =>
    rw [drain_stream_eof_nil download t (by omega)]
    exact ⟨_, rfl, rfl, rfl, fun _ => rfl⟩
  | cons e rest =>
    rw [drain_stream_eof_cons download t e rest (by omega)]
    exact ⟨_, rfl, rfl, rfl, fun h => nomatch h⟩

/-- Witness for C10: download 3, no reads before end-of-data at elapsed
2 — the single recorded first-byte latency equals the finish time. -/
theorem first_byte_recorded_once_witness :
    0 < 3 ∧
    ∃ r, (drain_stream 3 [] (DrainEnd.eof 2)).record = some r ∧
      r.firstByteCalls.length = 1 ∧
      r.finishedAt = some 2 ∧
      (([] : List ReadEvent) = [] → r.firstByteCalls = [2]) :=
  ⟨by decide, first_byte_recorded_once 3 2 [] (by decide)⟩

/-- C4 counterexample: at `upload = 1`, `download = 0` (all writes
succeeding) the sender does not finish immediately after writing the
header — a payload write follows the header before the half-close. -/
theorem download_zero_counterexample :
    (request okEnv 1 0).1 ≠ [ReqEvent.write (toBeBytes64 0), ReqEvent.finishSend] := by
  have h0 : requestLoop okEnv 0 2 = ([], true) := by
    rw [requestLoop]
    simp
  have h1 : requestLoop okEnv 1 1
      = ([ReqEvent.write (List.replicate 1 42), ReqEvent.onBytes 1], true) := by
    rw [requestLoop]
    norm_num [DATA_LEN, h0, show okEnv.writeOk 1 = true from rfl]
  rw [request_unfold_pos okEnv 1 0 one_ne_zero rfl (by rw [h1])]
  simp [h1]

/-- C4 (amended): for every request with `download = 0` whose writes
succeed, the drain phase creates no receive-side stats record and
succeeds — in both the bidirectional driver and the unidirectional driver
(once the peer response stream is accepted) — and the sender finishes
immediately after writing the header exactly when `upload = 0` as well. -/
theorem download_zero_no_recv_record (env : SendEnv) (reads : List ReadEvent)
    (ending : DrainEnd) (upload : Nat) (hw : ∀ j, env.writeOk j = true) :
    (request_bi env reads ending upload 0).2 = some { record := none, ok := true } ∧
    (request_uni env true reads ending upload 0).2 = some { record := none, ok := true } ∧
    ((request env upload 0).1
        = [ReqEvent.write (toBeBytes64 0), ReqEvent.finishSend] ↔ upload = 0) := by
  have hok := request_ok env upload 0 hw
  refine ⟨?_, ?_, ?_, ?_⟩
  · simp [request_bi, hok, drain_stream]
  · simp [request_uni, hok, drain_stream]
  · intro heq
    by_contra h0
    obtain ⟨hb1, _, _, _, _, _⟩ := requestLoop_spec env hw upload 1
    rw [request_unfold_pos env upload 0 h0 (hw 0) hb1] at heq
    simp at heq
  · intro h0
    subst h0
    rw [request_unfold_zero env 0 (hw 0)]

/-- Witness for the amended C4 at `upload = 1`, empty response script. -/
theorem download_zero_no_recv_record_witness :
    (∀ j, okEnv.writeOk j = true) ∧
    ((request_bi okEnv [] (DrainEnd.eof 0) 1 0).2 = some { record := none, ok := true } ∧
     (request_uni okEnv true [] (DrainEnd.eof 0) 1 0).2
       = some { record := none, ok := true } ∧
     ((request okEnv 1 0).1
         = [ReqEvent.write (toBeBytes64 0), ReqEvent.finishSend] ↔ 1 = 0)) :=
  ⟨fun _ => rfl, download_zero_no_recv_record okEnv [] (DrainEnd.eof 0) 1 fun _ => rfl⟩

/-- C7: the interrupt arm closes the connection with code 0 and reason
"interrupted", the deadline arm — which fires after the configured run
duration plus a 200 ms grace period — closes it with code 0 and reason
"done", and in both cases the endpoint is awaited fully idle before the
optional structured summary is written. -/
theorem lifecycle_close_and_quiesce (jsonOut : Bool) (durationSecs : Nat) :
    runTail RaceWinner.interrupted jsonOut
      = RunEvent.closeConn 0 "interrupted" :: RunEvent.waitIdle ::
        (if jsonOut then [RunEvent.printJson] else []) ∧
    runTail RaceWinner.deadline jsonOut
      = RunEvent.closeConn 0 "done" :: RunEvent.waitIdle ::
        (if jsonOut then [RunEvent.printJson] else []) ∧
    deadlineMillis durationSecs = durationSecs * 1000 + 200 := by
  refine ⟨?_, ?_, rfl⟩ <;> cases jsonOut <;> rfl

/-- C9: when a setup step of `run` fails (such as host resolution or
connection establishment), the engine never starts, and `main` reports
the error before the process terminates. -/
theorem setup_failure_reported (env : SetupEnv) (engine : Except String Unit) (e : String)
    (h : runSetup env = Except.error e) :
    (run_model env engine).2 = false ∧
    main_model (run_model env engine).1 = MainOutcome.errorReported e := by
  simp [run_model, h, main_model]

/-- Witness for C9: the connection step fails with "connecting". -/
theorem setup_failure_reported_witness :
    runSetup connectFailEnv = Except.error connectErrMsg ∧
    ((run_model connectFailEnv (Except.ok ())).2 = false ∧
     main_model (run_model connectFailEnv (Except.ok ())).1
       = MainOutcome.errorReported connectErrMsg) :=
  ⟨rfl, setup_failure_reported connectFailEnv (Except.ok ()) connectErrMsg rfl⟩
